import Mathlib

/-!
Verification of the egm722 notebook pipelines.

The repository contains two linear data pipelines:

Pipeline B (static choropleth, unnamed notebook): load wards and counties,
reproject both to EPSG:32629, spatially join them with
sjoin(wards, counties, how=inner, predicate=intersects), group the joined
table by CountyName summing Population, report the county rows selected by
idxmax and idxmin, and render a static figure coloured from the original
wards table.

Pipeline A (interactive map, Week3/Folium.ipynb): build point geometries
from the lon/lat columns of Airports.csv with points_from_xy, and join the
wards table with transport_data.csv on the shared Ward Code column using
DataFrame.merge (inner join).

The development below is a shallow embedding of these operations.  Feature
tables are lists of records; the geometry type and the intersects predicate
of the geometry engine are parameters.  Machine floats that only ever flow
through the pipeline unchanged (coordinates, distances) are modelled as
rationals; integer attributes (Population) as integers.
-/

namespace EGM722

/-! ## String comparison

Group keys produced by a groupby are sorted in ascending order of the key.
Python compares strings by code point, lexicographically; the executable
comparator below embeds that comparison.
-/

/-- Code-point lexicographic comparison of character lists: the comparison
Python applies when ordering string keys. -/
def lexLe : List Char → List Char → Bool
  | [], _ => true
  | _ :: _, [] => false
  | a :: as, b :: bs =>
    if a.toNat < b.toNat then true
    else if b.toNat < a.toNat then false
    else lexLe as bs

/-- Lexicographic comparison of strings by code point. -/
def strLe (a b : String) : Bool := lexLe a.data b.data

/-- The ordering relation on strings induced by strLe. -/
def strLeP (a b : String) : Prop := strLe a b = true

instance : DecidableRel strLeP :=
  fun a b => inferInstanceAs (Decidable (strLe a b = true))

/-! ## Pipeline B: data model

The wards layer carries a ward identifier, the Population attribute and a
geometry; the counties layer carries the CountyName attribute and a
geometry.  The geometry type is a parameter, and the intersects predicate
of the geometry engine is passed to the spatial join explicitly.
-/

/-- A record of the NI_Wards layer: ward identifier, Population attribute
and geometry. -/
structure WardRow (γ : Type) where
  wardCode : String
  population : Int
  geometry : γ
deriving DecidableEq, Repr

/-- A record of the Counties layer: CountyName attribute and geometry. -/
structure CountyRow (γ : Type) where
  countyName : String
  geometry : γ
deriving DecidableEq, Repr

/-- A record of the joined table produced by
sjoin(wards, counties, how=inner, predicate=intersects): the left record
with its geometry, plus the positional index of the matching right record
and the right record's CountyName attribute. -/
structure JoinedRow (γ : Type) where
  wardCode : String
  population : Int
  geometry : γ
  index_right : Nat
  countyName : String
deriving DecidableEq, Repr

variable {γ : Type}

/-- The rows the spatial join produces for one left (ward) record: one
output row for every county record whose geometry intersects the ward,
carrying the county's attributes; n is the positional index of the first
county in the remaining list. -/
def joinRowsFor (i : γ → γ → Bool) (w : WardRow γ) :
    List (CountyRow γ) → Nat → List (JoinedRow γ)
  | [], _ => []
  | c :: cs, n =>
    if i w.geometry c.geometry then
      { wardCode := w.wardCode, population := w.population, geometry := w.geometry,
        index_right := n, countyName := c.countyName } :: joinRowsFor i w cs (n + 1)
    else
      joinRowsFor i w cs (n + 1)

/-- gpd.sjoin(wards, counties, how=inner, predicate=intersects): for each
ward record in left order, one output row per intersecting county record,
in right order; non-matching records of either side produce no row. -/
def sjoin (i : γ → γ → Bool) (wards : List (WardRow γ))
    (counties : List (CountyRow γ)) : List (JoinedRow γ) :=
  wards.flatMap (fun w => joinRowsFor i w counties 0)

/-- The distinct CountyName keys of the joined table, sorted ascending:
pandas groupby sorts its group keys. -/
def countyKeys (rows : List (JoinedRow γ)) : List String :=
  List.insertionSort strLeP ((rows.map (fun r => r.countyName)).dedup)

/-- The Population sum of one group: the sum of the Population attribute
over the joined rows carrying the given CountyName. -/
def sumPopulation (rows : List (JoinedRow γ)) (name : String) : Int :=
  ((rows.filter (fun r => r.countyName == name)).map (fun r => r.population)).sum

/-- wards_county.groupby(CountyName)[Population].sum().reset_index(): one
row per distinct CountyName in ascending key order, carrying the group's
Population sum. -/
def population_by_county (rows : List (JoinedRow γ)) : List (String × Int) :=
  (countyKeys rows).map (fun n => (n, sumPopulation rows n))

/-- Series.idxmax followed by .loc: the first row of the table attaining
the maximal value, none on an empty table. -/
def idxmaxRow : List (String × Int) → Option (String × Int)
  | [] => none
  | p :: rest =>
    match idxmaxRow rest with
    | none => some p
    | some m => if m.2 > p.2 then some m else some p

/-- Series.idxmin followed by .loc: the first row of the table attaining
the minimal value, none on an empty table. -/
def idxminRow : List (String × Int) → Option (String × Int)
  | [] => none
  | p :: rest =>
    match idxminRow rest with
    | none => some p
    | some m => if m.2 < p.2 then some m else some p

/-- max_county = population_by_county.loc[population_by_county[Population].idxmax()]. -/
def max_county (rows : List (JoinedRow γ)) : Option (String × Int) :=
  idxmaxRow (population_by_county rows)

/-- min_county = population_by_county.loc[population_by_county[Population].idxmin()]. -/
def min_county (rows : List (JoinedRow γ)) : Option (String × Int) :=
  idxminRow (population_by_county rows)

/-- The two print statements reporting the counties with the highest and
lowest summed population. -/
def printedReport (rows : List (JoinedRow γ)) : Option (String × String) :=
  match max_county rows, min_county rows with
  | some mx, some mn =>
    some ("County with highest population: " ++ mx.1 ++ " - " ++ toString mx.2
            ++ " residents",
          "County with lowest population: " ++ mn.1 ++ " - " ++ toString mn.2
            ++ " residents")
  | _, _ => none

/-- Everything the static rendering consumes: the wards' Population column
and geometries (wards.plot with column=Population, vmin=1000, vmax=8000,
cmap=viridis and the colorbar label), the county outline geometries drawn
in red, the fixed gridline positions, the manual legend text and the
export resolution. -/
structure StaticFigure (γ : Type) where
  wardLayer : List (Int × γ)
  vmin : Int
  vmax : Int
  cmap : String
  colorbarLabel : String
  countyOutlines : List γ
  outlineColor : String
  gridXlocs : List ℚ
  gridYlocs : List ℚ
  legendText : String
  dpi : Nat
deriving DecidableEq, Repr

/-- The static figure the notebook renders and saves: built from the wards
table and the counties table only. -/
def renderFigure (wards : List (WardRow γ)) (counties : List (CountyRow γ)) :
    StaticFigure γ :=
  { wardLayer := wards.map (fun w => (w.population, w.geometry)),
    vmin := 1000, vmax := 8000, cmap := "viridis",
    colorbarLabel := "Resident Population",
    countyOutlines := counties.map (fun c => c.geometry),
    outlineColor := "r",
    gridXlocs := [-8, -15/2, -7, -13/2, -6, -11/2],
    gridYlocs := [54, 109/2, 55, 111/2],
    legendText := "County Boundaries",
    dpi := 300 }

/-- The observable outputs of one run of the static pipeline: the saved
figure and the printed min/max report. -/
structure RunOutput (γ : Type) where
  figure : StaticFigure γ
  report : Option (String × String)
deriving DecidableEq, Repr

/-- One run of the static choropleth pipeline: spatially join wards and
counties with the geometry engine's intersects predicate i, aggregate and
print the min/max report, and render the figure. -/
def runPipeline (i : γ → γ → Bool) (wards : List (WardRow γ))
    (counties : List (CountyRow γ)) : RunOutput γ :=
  { figure := renderFigure wards counties,
    report := printedReport (sjoin i wards counties) }

/-! ## Pipeline A: attribute join and geometry building -/

/-- A record of the wards attribute table used by the Folium notebook. -/
structure WardRec (γ : Type) where
  wardCode : String
  population : Int
  geometry : γ
deriving DecidableEq, Repr

/-- A record of transport_data.csv: Ward Code key and Distance attribute
(kilometres, a machine float modelled as a rational). -/
structure TransportRec where
  wardCode : String
  distance : ℚ
deriving DecidableEq, Repr

/-- A record of merged = wards.merge(transport, left_on=Ward Code,
right_on=Ward Code): the left record's columns plus the matching right
record's Distance column. -/
structure MergedRec (γ : Type) where
  wardCode : String
  population : Int
  geometry : γ
  distance : ℚ
deriving DecidableEq, Repr

/-- wards.merge(transport, left_on=Ward Code, right_on=Ward Code): pandas
merge with the default how=inner; for each left record, one output row per
right record with an equal key, and records of either side without an
equal key on the other side produce no row. -/
def merge (wards : List (WardRec γ)) (transport : List TransportRec) :
    List (MergedRec γ) :=
  wards.flatMap (fun w =>
    (transport.filter (fun t => t.wardCode == w.wardCode)).map
      (fun t => { wardCode := w.wardCode, population := w.population,
                  geometry := w.geometry, distance := t.distance }))

/-- A point geometry: x and y coordinate (machine floats modelled as
rationals). -/
structure PointGeom where
  x : ℚ
  y : ℚ
deriving DecidableEq, Repr

/-- A row of Airports.csv: name, website and lon/lat coordinate columns. -/
structure AirportCsvRow where
  name : String
  website : String
  lon : ℚ
  lat : ℚ
deriving DecidableEq, Repr

/-- A record of the airports GeoDataFrame: the name and website columns
kept from the csv, plus the built point geometry. -/
structure AirportFeature where
  name : String
  website : String
  geometry : PointGeom
deriving DecidableEq, Repr

/-- gpd.points_from_xy(df[lon], df[lat]): one point per position, x from
the first column and y from the second, unchanged. -/
def points_from_xy (lons lats : List ℚ) : List PointGeom :=
  List.zipWith (fun x y => { x := x, y := y }) lons lats

/-- The airports GeoDataFrame together with its declared coordinate
reference system. -/
structure AirportsGDF where
  rows : List AirportFeature
  crs : String
deriving DecidableEq, Repr

/-- airports = gpd.GeoDataFrame(df[[name, website]],
geometry=gpd.points_from_xy(df[lon], df[lat]), crs=epsg:4326). -/
def airports (df : List AirportCsvRow) : AirportsGDF :=
  { rows := List.zipWith
      (fun r p => { name := r.name, website := r.website, geometry := p })
      df (points_from_xy (df.map (fun r => r.lon)) (df.map (fun r => r.lat))),
    crs := "epsg:4326" }

/-! ## Concrete example data

Geometries of the example layers are natural numbers and the example
geometry engine declares two geometries intersecting when they are equal;
this is only one concrete instantiation of the geometry parameter, used to
evaluate the theorems on closed inputs.
-/

/-- A concrete intersects predicate on Nat geometries. -/
def exIntersects : Nat → Nat → Bool := fun a b => a == b

/-- Example wards layer: W1 intersects two counties, W2 one. -/
def exWards : List (WardRow Nat) :=
  [{ wardCode := "W1", population := 100, geometry := 1 },
   { wardCode := "W2", population := 50, geometry := 2 }]

/-- Example counties layer: Antrim and Armagh share geometry 1. -/
def exCounties : List (CountyRow Nat) :=
  [{ countyName := "Antrim", geometry := 1 },
   { countyName := "Down", geometry := 2 },
   { countyName := "Armagh", geometry := 1 }]

/-- Example ward whose geometry 99 intersects no example county. -/
def exWardIsolated : WardRow Nat :=
  { wardCode := "W9", population := 77, geometry := 99 }

/-- Example joined table with a tie: Antrim and Down both sum to 100. -/
def exJoined : List (JoinedRow Nat) :=
  [{ wardCode := "W1", population := 100, geometry := 1, index_right := 0,
     countyName := "Down" },
   { wardCode := "W2", population := 100, geometry := 2, index_right := 1,
     countyName := "Antrim" },
   { wardCode := "W3", population := 50, geometry := 3, index_right := 2,
     countyName := "Cavan" }]

/-- Example left table of the attribute join: two records with key W1. -/
def exWardsA : List (WardRec Unit) :=
  [{ wardCode := "W1", population := 100, geometry := () },
   { wardCode := "W1", population := 100, geometry := () }]

/-- Example right table of the attribute join: one record with key W1 and
distance 2.3. -/
def exTransport : List TransportRec :=
  [{ wardCode := "W1", distance := 23/10 }]

/-- Example airport csv rows. -/
def exAirports : List AirportCsvRow :=
  [{ name := "Belfast", website := "a", lon := -6, lat := 54 },
   { name := "Derry", website := "b", lon := -15/2, lat := 55 }]

/-! ## Properties of the string comparator -/

theorem lexLe_total : ∀ as bs : List Char, lexLe as bs = true ∨ lexLe bs as = true
  | [], _ => Or.inl rfl
  | _ :: _, [] => Or.inr rfl
  | a :: as, b :: bs => by
    simp only [lexLe]
    rcases Nat.lt_trichotomy a.toNat b.toNat with h | h | h
    · left
      simp [h]
    · have h1 : ¬a.toNat < b.toNat := by omega
      have h2 : ¬b.toNat < a.toNat := by omega
      simpa [h1, h2] using lexLe_total as bs
    · right
      simp [h]

theorem lexLe_trans :
    ∀ {as bs cs : List Char}, lexLe as bs = true → lexLe bs cs = true → lexLe as cs = true
  | [], _, _, _, _ => rfl
  | a :: as, b :: bs, [], _, h2 => by simp [lexLe] at h2
  | a :: as, [], c :: cs, h1, _ => by simp [lexLe] at h1
  | a :: as, b :: bs, c :: cs, h1, h2 => by
    simp only [lexLe] at h1 h2 ⊢
    split_ifs at h1 h2 ⊢ <;> try rfl
    all_goals try omega
    all_goals exact lexLe_trans h1 h2

/-! ## Properties of the spatial join -/

theorem joinRowsFor_wardCode (i : γ → γ → Bool) (w : WardRow γ) :
    ∀ (cs : List (CountyRow γ)) (n : Nat),
      ∀ r ∈ joinRowsFor i w cs n, r.wardCode = w.wardCode := by
  intro cs
  induction cs with
  | nil => intro n r hr; simp [joinRowsFor] at hr
  | cons c cs ih =>
    intro n r hr
    simp only [joinRowsFor] at hr
    by_cases h : i w.geometry c.geometry
    · rw [if_pos h] at hr
      rcases List.mem_cons.mp hr with h1 | h1
      · rw [h1]
      · exact ih (n + 1) r h1
    · rw [if_neg h] at hr
      exact ih (n + 1) r hr

theorem joinRowsFor_pairs (i : γ → γ → Bool) (w : WardRow γ) :
    ∀ (cs : List (CountyRow γ)) (n : Nat),
      (joinRowsFor i w cs n).map (fun r => (r.countyName, r.population))
        = (cs.filter (fun c => i w.geometry c.geometry)).map
            (fun c => (c.countyName, w.population)) := by
  intro cs
  induction cs with
  | nil => intro n; rfl
  | cons c cs ih =>
    intro n
    simp only [joinRowsFor, List.filter_cons]
    by_cases h : i w.geometry c.geometry
    · simp [h, ih (n + 1)]
    · simp [h, ih (n + 1)]

theorem joinRowsFor_eq_nil (i : γ → γ → Bool) (w : WardRow γ) :
    ∀ (cs : List (CountyRow γ)) (n : Nat),
      (∀ c ∈ cs, i w.geometry c.geometry = false) → joinRowsFor i w cs n = [] := by
  intro cs
  induction cs with
  | nil => intro n _; rfl
  | cons c cs ih =>
    intro n h
    have hc := h c (List.mem_cons_self c cs)
    simp only [joinRowsFor, hc]
    simp only [Bool.false_eq_true, if_false]
    exact ih (n + 1) (fun x hx => h x (List.mem_cons_of_mem c hx))

theorem filter_sjoin_of_pairwise (i : γ → γ → Bool) :
    ∀ (wards : List (WardRow γ)) (counties : List (CountyRow γ)) (w : WardRow γ),
      wards.Pairwise (fun a b => a.wardCode ≠ b.wardCode) → w ∈ wards →
      (sjoin i wards counties).filter (fun r => r.wardCode == w.wardCode)
        = joinRowsFor i w counties 0 := by
  intro wards
  induction wards with
  | nil => intro counties w _ hw; simp at hw
  | cons w0 ws ih =>
    intro counties w hpw hw
    simp only [sjoin, List.flatMap_cons, List.filter_append]
    rcases List.mem_cons.mp hw with rfl | hw'
    · have h1 : (joinRowsFor i w counties 0).filter
          (fun r => r.wardCode == w.wardCode) = joinRowsFor i w counties 0 := by
        apply List.filter_eq_self.mpr
        intro r hr
        simp [joinRowsFor_wardCode i w counties 0 r hr]
      have h2 : (ws.flatMap (fun x => joinRowsFor i x counties 0)).filter
          (fun r => r.wardCode == w.wardCode) = [] := by
        apply List.filter_eq_nil_iff.mpr
        intro r hr
        rcases List.mem_flatMap.mp hr with ⟨x, hx, hr'⟩
        have hcode := joinRowsFor_wardCode i x counties 0 r hr'
        have hne : w.wardCode ≠ x.wardCode := (List.pairwise_cons.mp hpw).1 x hx
        simp only [hcode, beq_iff_eq]
        exact fun hEq => hne hEq.symm
      rw [h1, h2, List.append_nil]
    · have hne : w0.wardCode ≠ w.wardCode := (List.pairwise_cons.mp hpw).1 w hw'
      have h1 : (joinRowsFor i w0 counties 0).filter
          (fun r => r.wardCode == w.wardCode) = [] := by
        apply List.filter_eq_nil_iff.mpr
        intro r hr
        have hcode := joinRowsFor_wardCode i w0 counties 0 r hr
        simp only [hcode, beq_iff_eq]
        exact fun hEq => hne hEq
      rw [h1, List.nil_append]
      exact ih counties w (List.pairwise_cons.mp hpw).2 hw'

/-- C1: for every ward in the spatial join's input (ward identifiers being
distinct), the join attaches the attributes of each county the ward's
geometry intersects: the rows of the joined table belonging to that ward
list exactly the intersected counties, each row carrying that county's
name together with the ward's Population, so a ward intersecting k
counties yields exactly k output rows and its Population is counted once
per intersected county in the subsequent per-county sums. -/
theorem sjoin_attaches_each_intersected_county (i : γ → γ → Bool)
    (wards : List (WardRow γ)) (counties : List (CountyRow γ)) (w : WardRow γ)
    (hnd : wards.Pairwise (fun a b => a.wardCode ≠ b.wardCode)) (hw : w ∈ wards) :
    ((sjoin i wards counties).filter (fun r => r.wardCode == w.wardCode)).map
        (fun r => (r.countyName, r.population))
      = (counties.filter (fun c => i w.geometry c.geometry)).map
          (fun c => (c.countyName, w.population))
    ∧ ((sjoin i wards counties).filter (fun r => r.wardCode == w.wardCode)).length
      = (counties.filter (fun c => i w.geometry c.geometry)).length := by
  have h := filter_sjoin_of_pairwise i wards counties w hnd hw
  constructor
  · rw [h, joinRowsFor_pairs]
  · rw [h]
    have hlen := congrArg List.length (joinRowsFor_pairs i w counties 0)
    simpa using hlen

/-- Witness for C1 on the example layers: ward W1 intersects the two
counties Antrim and Armagh and yields exactly those two joined rows, each
carrying W1's population 100. -/
theorem sjoin_attaches_each_intersected_county_witness :
    (exWards.Pairwise (fun a b => a.wardCode ≠ b.wardCode)
      ∧ { wardCode := "W1", population := 100, geometry := 1 } ∈ exWards)
    ∧ ((sjoin exIntersects exWards exCounties).filter
          (fun r => r.wardCode == "W1")).map (fun r => (r.countyName, r.population))
        = [("Antrim", (100 : Int)), ("Armagh", 100)]
    ∧ ((sjoin exIntersects exWards exCounties).filter
          (fun r => r.wardCode == "W1")).length = 2 := by
  refine ⟨⟨by decide, by decide⟩, ?_, by decide⟩
  have h := sjoin_attaches_each_intersected_county exIntersects exWards exCounties
    { wardCode := "W1", population := 100, geometry := 1 } (by decide) (by decide)
  exact h.1.trans (by decide)

/-- C8: the spatial join has inner semantics: a ward whose geometry
intersects no county produces no joined row, so removing it from the input
leaves the joined table unchanged, and therefore its Population
contributes to no county group's sum and to none of the reported min/max
statistics. -/
theorem sjoin_inner_drops_nonintersecting (i : γ → γ → Bool)
    (l₁ l₂ : List (WardRow γ)) (counties : List (CountyRow γ)) (w : WardRow γ)
    (h : ∀ c ∈ counties, i w.geometry c.geometry = false) :
    sjoin i (l₁ ++ w :: l₂) counties = sjoin i (l₁ ++ l₂) counties
    ∧ population_by_county (sjoin i (l₁ ++ w :: l₂) counties)
        = population_by_county (sjoin i (l₁ ++ l₂) counties)
    ∧ max_county (sjoin i (l₁ ++ w :: l₂) counties)
        = max_county (sjoin i (l₁ ++ l₂) counties)
    ∧ min_county (sjoin i (l₁ ++ w :: l₂) counties)
        = min_county (sjoin i (l₁ ++ l₂) counties) := by
  have hj : sjoin i (l₁ ++ w :: l₂) counties = sjoin i (l₁ ++ l₂) counties := by
    simp only [sjoin, List.flatMap_append, List.flatMap_cons]
    rw [joinRowsFor_eq_nil i w counties 0 h, List.nil_append]
  exact ⟨hj, by rw [hj], by rw [hj], by rw [hj]⟩

/-- Witness for C8 on the example layers: the isolated ward W9 intersects
no county, and inserting it between W1 and W2 leaves the joined table and
all aggregates unchanged. -/
theorem sjoin_inner_drops_nonintersecting_witness :
    (∀ c ∈ exCounties, exIntersects exWardIsolated.geometry c.geometry = false)
    ∧ sjoin exIntersects
        ([{ wardCode := "W1", population := 100, geometry := 1 }]
          ++ exWardIsolated :: [{ wardCode := "W2", population := 50, geometry := 2 }])
        exCounties
      = sjoin exIntersects
          ([{ wardCode := "W1", population := 100, geometry := 1 }]
            ++ [{ wardCode := "W2", population := 50, geometry := 2 }]) exCounties := by
  refine ⟨by decide, ?_⟩
  exact (sjoin_inner_drops_nonintersecting exIntersects
    [{ wardCode := "W1", population := 100, geometry := 1 }]
    [{ wardCode := "W2", population := 50, geometry := 2 }]
    exCounties exWardIsolated (by decide)).1

/-! ## Properties of the aggregation -/

theorem sum_filter_split (p : JoinedRow γ → Bool) (rows : List (JoinedRow γ)) :
    ((rows.filter p).map (fun r => r.population)).sum
      + ((rows.filter (fun r => !p r)).map (fun r => r.population)).sum
      = (rows.map (fun r => r.population)).sum := by
  induction rows with
  | nil => simp
  | cons r rows ih =>
    by_cases h : p r <;> simp [List.filter_cons, h] <;> omega

theorem sumPopulation_filter_ne (rows : List (JoinedRow γ)) (k n : String)
    (hkn : n ≠ k) :
    sumPopulation (rows.filter (fun r => !(r.countyName == k))) n
      = sumPopulation rows n := by
  unfold sumPopulation
  rw [List.filter_filter]
  congr 1
  congr 1
  apply List.filter_congr
  intro r _
  by_cases h : r.countyName = n
  · simp [h, hkn]
  · simp [h]

theorem sum_over_keys :
    ∀ (ks : List String) (rows : List (JoinedRow γ)), ks.Nodup →
      (∀ r ∈ rows, r.countyName ∈ ks) →
      (ks.map (fun n => sumPopulation rows n)).sum
        = (rows.map (fun r => r.population)).sum := by
  intro ks
  induction ks with
  | nil =>
    intro rows _ hcov
    cases rows with
    | nil => rfl
    | cons r rest => exact absurd (hcov r (List.mem_cons_self r rest)) (List.not_mem_nil _)
  | cons k ks ih =>
    intro rows hnd hcov
    have hnd' := (List.nodup_cons.mp hnd).2
    have hknot : k ∉ ks := (List.nodup_cons.mp hnd).1
    have hcov' : ∀ r ∈ rows.filter (fun r => !(r.countyName == k)),
        r.countyName ∈ ks := by
      intro r hr
      have hm := List.mem_filter.mp hr
      have hne : r.countyName ≠ k := by simpa using hm.2
      rcases List.mem_cons.mp (hcov r hm.1) with h | h
      · exact absurd h hne
      · exact h
    have hmaps : (ks.map (fun n => sumPopulation rows n)).sum
        = (ks.map (fun n =>
            sumPopulation (rows.filter (fun r => !(r.countyName == k))) n)).sum := by
      congr 1
      apply List.map_congr_left
      intro n hn
      exact (sumPopulation_filter_ne rows k n (fun hEq => hknot (hEq ▸ hn))).symm
    have hsplit := sum_filter_split (fun r => r.countyName == k) rows
    have hrest := ih (rows.filter (fun r => !(r.countyName == k))) hnd' hcov'
    simp only [List.map_cons, List.sum_cons]
    rw [hmaps, hrest]
    exact hsplit

theorem mem_countyKeys (rows : List (JoinedRow γ)) :
    ∀ r ∈ rows, r.countyName ∈ countyKeys rows := by
  intro r hr
  exact (List.perm_insertionSort strLeP _).mem_iff.mpr
    (List.mem_dedup.mpr (List.mem_map_of_mem _ hr))

theorem countyKeys_nodup (rows : List (JoinedRow γ)) : (countyKeys rows).Nodup :=
  ((List.perm_insertionSort strLeP _).nodup_iff).mpr (List.nodup_dedup _)

theorem countyKeys_sorted (rows : List (JoinedRow γ)) :
    List.Sorted strLeP (countyKeys rows) := by
  haveI : IsTotal String strLeP := ⟨fun a b => lexLe_total a.data b.data⟩
  haveI : IsTrans String strLeP := ⟨fun _ _ _ h1 h2 => lexLe_trans h1 h2⟩
  exact List.sorted_insertionSort strLeP _

theorem population_by_county_ne_nil (rows : List (JoinedRow γ)) (h : rows ≠ []) :
    population_by_county rows ≠ [] := by
  cases rows with
  | nil => exact absurd rfl h
  | cons r rest =>
    have hmem : r.countyName ∈ countyKeys (r :: rest) :=
      mem_countyKeys _ r (List.mem_cons_self r rest)
    unfold population_by_county
    intro hnil
    cases hk : countyKeys (r :: rest) with
    | nil => rw [hk] at hmem; exact (List.not_mem_nil _) hmem
    | cons a l => rw [hk] at hnil; simp at hnil

/-- C2: each group of the aggregation carries the sum of the Population
attribute over exactly the joined rows labelled with the group's
CountyName, and the group sums add up to the Population total of the whole
joined table (each joined row belongs to exactly one group). -/
theorem population_by_county_sums (rows : List (JoinedRow γ)) :
    (∀ p ∈ population_by_county rows,
        p.2 = ((rows.filter (fun r => r.countyName == p.1)).map
                (fun r => r.population)).sum)
    ∧ ((population_by_county rows).map (fun p => p.2)).sum
        = (rows.map (fun r => r.population)).sum := by
  constructor
  · intro p hp
    rcases List.mem_map.mp hp with ⟨n, hn, rfl⟩
    rfl
  · have h1 : (population_by_county rows).map (fun p => p.2)
        = (countyKeys rows).map (fun n => sumPopulation rows n) := by
      unfold population_by_county
      rw [List.map_map]
      rfl
    rw [h1]
    exact sum_over_keys (countyKeys rows) rows (countyKeys_nodup rows)
      (mem_countyKeys rows)

/-- Witness for C2 on the example joined table: the three county groups
and their sums, with the per-group and total sum laws instantiated. -/
theorem population_by_county_sums_witness :
    population_by_county exJoined
      = [("Antrim", (100 : Int)), ("Cavan", 50), ("Down", 100)]
    ∧ ((population_by_county exJoined).map (fun p => p.2)).sum
        = (exJoined.map (fun r => r.population)).sum
    ∧ (∀ p ∈ population_by_county exJoined,
        p.2 = ((exJoined.filter (fun r => r.countyName == p.1)).map
                (fun r => r.population)).sum) :=
  ⟨by decide, (population_by_county_sums exJoined).2,
    (population_by_county_sums exJoined).1⟩

/-! ## Properties of idxmax and idxmin -/

theorem idxmaxRow_eq_none {l : List (String × Int)} : idxmaxRow l = none ↔ l = [] := by
  cases l with
  | nil => simp [idxmaxRow]
  | cons p rest =>
    simp only [idxmaxRow]
    cases idxmaxRow rest with
    | none => simp
    | some m =>
      by_cases h : m.2 > p.2
      · simp [h]
      · simp [h]

theorem idxminRow_eq_none {l : List (String × Int)} : idxminRow l = none ↔ l = [] := by
  cases l with
  | nil => simp [idxminRow]
  | cons p rest =>
    simp only [idxminRow]
    cases idxminRow rest with
    | none => simp
    | some m =>
      by_cases h : m.2 < p.2
      · simp [h]
      · simp [h]

theorem idxmaxRow_spec :
    ∀ (l : List (String × Int)) (m : String × Int), idxmaxRow l = some m →
      ∃ l₁ l₂, l = l₁ ++ m :: l₂ ∧ (∀ p ∈ l₁, p.2 < m.2) ∧ ∀ p ∈ l, p.2 ≤ m.2 := by
  intro l
  induction l with
  | nil => intro m h; simp [idxmaxRow] at h
  | cons p rest ih =>
    intro m h
    simp only [idxmaxRow] at h
    cases hrest : idxmaxRow rest with
    | none =>
      rw [hrest] at h
      have hm : p = m := Option.some.inj h
      subst hm
      have hnil : rest = [] := idxmaxRow_eq_none.mp hrest
      subst hnil
      exact ⟨[], [], rfl, by simp, by simp⟩
    | some mr =>
      rw [hrest] at h
      have h' : (if mr.2 > p.2 then some mr else some p) = some m := h
      rcases ih mr hrest with ⟨l₁, l₂, hsp, hlt, hle⟩
      by_cases hc : mr.2 > p.2
      · rw [if_pos hc] at h'
        have hm : mr = m := Option.some.inj h'
        subst hm
        refine ⟨p :: l₁, l₂, by rw [hsp, List.cons_append], ?_, ?_⟩
        · intro q hq
          rcases List.mem_cons.mp hq with rfl | hq'
          · exact hc
          · exact hlt q hq'
        · intro q hq
          rcases List.mem_cons.mp hq with rfl | hq'
          · exact le_of_lt hc
          · exact hle q hq'
      · rw [if_neg hc] at h'
        have hm : p = m := Option.some.inj h'
        subst hm
        push_neg at hc
        refine ⟨[], rest, rfl, by simp, ?_⟩
        intro q hq
        rcases List.mem_cons.mp hq with rfl | hq'
        · exact le_refl _
        · exact (hle q hq').trans hc

theorem idxminRow_spec :
    ∀ (l : List (String × Int)) (m : String × Int), idxminRow l = some m →
      ∃ l₁ l₂, l = l₁ ++ m :: l₂ ∧ (∀ p ∈ l₁, m.2 < p.2) ∧ ∀ p ∈ l, m.2 ≤ p.2 := by
  intro l
  induction l with
  | nil => intro m h; simp [idxminRow] at h
  | cons p rest ih =>
    intro m h
    simp only [idxminRow] at h
    cases hrest : idxminRow rest with
    | none =>
      rw [hrest] at h
      have hm : p = m := Option.some.inj h
      subst hm
      have hnil : rest = [] := idxminRow_eq_none.mp hrest
      subst hnil
      exact ⟨[], [], rfl, by simp, by simp⟩
    | some mr =>
      rw [hrest] at h
      have h' : (if mr.2 < p.2 then some mr else some p) = some m := h
      rcases ih mr hrest with ⟨l₁, l₂, hsp, hlt, hle⟩
      by_cases hc : mr.2 < p.2
      · rw [if_pos hc] at h'
        have hm : mr = m := Option.some.inj h'
        subst hm
        refine ⟨p :: l₁, l₂, by rw [hsp, List.cons_append], ?_, ?_⟩
        · intro q hq
          rcases List.mem_cons.mp hq with rfl | hq'
          · exact hc
          · exact hlt q hq'
        · intro q hq
          rcases List.mem_cons.mp hq with rfl | hq'
          · exact le_of_lt hc
          · exact hle q hq'
      · rw [if_neg hc] at h'
        have hm : p = m := Option.some.inj h'
        subst hm
        push_neg at hc
        refine ⟨[], rest, rfl, by simp, ?_⟩
        intro q hq
        rcases List.mem_cons.mp hq with rfl | hq'
        · exact le_refl _
        · exact hc.trans (hle q hq')

/-- C5: on every non-empty joined table, the aggregator partitions by
CountyName, sums Population per partition, and reports a partition whose
sum is greater than or equal to every partition sum (max_county) and one
whose sum is less than or equal to every partition sum (min_county), both
taken from the aggregation's output. -/
theorem aggregator_reports_min_max (rows : List (JoinedRow γ)) (h : rows ≠ []) :
    ∃ mx mn, max_county rows = some mx ∧ min_county rows = some mn
      ∧ mx ∈ population_by_county rows ∧ mn ∈ population_by_county rows
      ∧ (∀ p ∈ population_by_county rows, p.2 ≤ mx.2)
      ∧ (∀ p ∈ population_by_county rows, mn.2 ≤ p.2) := by
  have hne := population_by_county_ne_nil rows h
  cases hmx : idxmaxRow (population_by_county rows) with
  | none => exact absurd (idxmaxRow_eq_none.mp hmx) hne
  | some mx =>
    cases hmn : idxminRow (population_by_county rows) with
    | none => exact absurd (idxminRow_eq_none.mp hmn) hne
    | some mn =>
      rcases idxmaxRow_spec _ mx hmx with ⟨l₁, l₂, hsp, _, hle⟩
      rcases idxminRow_spec _ mn hmn with ⟨k₁, k₂, ksp, _, kge⟩
      refine ⟨mx, mn, hmx, hmn, ?_, ?_, hle, kge⟩
      · rw [hsp]
        exact List.mem_append_right _ (List.mem_cons_self _ _)
      · rw [ksp]
        exact List.mem_append_right _ (List.mem_cons_self _ _)

/-- Witness for C5 on the example joined table. -/
theorem aggregator_reports_min_max_witness :
    exJoined ≠ []
    ∧ max_county exJoined = some ("Antrim", 100)
    ∧ min_county exJoined = some ("Cavan", 50)
    ∧ (∃ mx mn, max_county exJoined = some mx ∧ min_county exJoined = some mn
        ∧ mx ∈ population_by_county exJoined ∧ mn ∈ population_by_county exJoined
        ∧ (∀ p ∈ population_by_county exJoined, p.2 ≤ mx.2)
        ∧ (∀ p ∈ population_by_county exJoined, mn.2 ≤ p.2)) :=
  ⟨by decide, by decide, by decide,
    aggregator_reports_min_max exJoined (by decide)⟩

/-- C9: the aggregation lists its groups in ascending order of the county
name, and when several groups share the extremal summed Population the
reported county is the first group in that output order attaining the
extremum: every group placed before it has a strictly smaller
(respectively strictly larger) sum. -/
theorem extremum_is_first_in_sorted_order (rows : List (JoinedRow γ)) (h : rows ≠ []) :
    List.Sorted strLeP ((population_by_county rows).map (fun p => p.1))
    ∧ (∃ mx l₁ l₂, max_county rows = some mx
        ∧ population_by_county rows = l₁ ++ mx :: l₂
        ∧ (∀ p ∈ l₁, p.2 < mx.2)
        ∧ ∀ p ∈ population_by_county rows, p.2 ≤ mx.2)
    ∧ (∃ mn k₁ k₂, min_county rows = some mn
        ∧ population_by_county rows = k₁ ++ mn :: k₂
        ∧ (∀ p ∈ k₁, mn.2 < p.2)
        ∧ ∀ p ∈ population_by_county rows, mn.2 ≤ p.2) := by
  have hne := population_by_county_ne_nil rows h
  refine ⟨?_, ?_, ?_⟩
  · have hkeys : (population_by_county rows).map (fun p => p.1) = countyKeys rows := by
      unfold population_by_county
      rw [List.map_map]
      exact List.map_id _
    rw [hkeys]
    exact countyKeys_sorted rows
  · cases hmx : idxmaxRow (population_by_county rows) with
    | none => exact absurd (idxmaxRow_eq_none.mp hmx) hne
    | some mx =>
      rcases idxmaxRow_spec _ mx hmx with ⟨l₁, l₂, hsp, hlt, hle⟩
      exact ⟨mx, l₁, l₂, hmx, hsp, hlt, hle⟩
  · cases hmn : idxminRow (population_by_county rows) with
    | none => exact absurd (idxminRow_eq_none.mp hmn) hne
    | some mn =>
      rcases idxminRow_spec _ mn hmn with ⟨k₁, k₂, ksp, hlt, hge⟩
      exact ⟨mn, k₁, k₂, hmn, ksp, hlt, hge⟩

/-- Witness for C9 on the example joined table: Antrim and Down tie at a
summed population of 100 and the reported maximum is Antrim, the first of
the two in the ascending key order Antrim, Cavan, Down. -/
theorem extremum_is_first_in_sorted_order_witness :
    exJoined ≠ []
    ∧ (population_by_county exJoined).map (fun p => p.1) = ["Antrim", "Cavan", "Down"]
    ∧ max_county exJoined = some ("Antrim", 100)
    ∧ (List.Sorted strLeP ((population_by_county exJoined).map (fun p => p.1))
        ∧ (∃ mx l₁ l₂, max_county exJoined = some mx
            ∧ population_by_county exJoined = l₁ ++ mx :: l₂
            ∧ (∀ p ∈ l₁, p.2 < mx.2)
            ∧ ∀ p ∈ population_by_county exJoined, p.2 ≤ mx.2)
        ∧ (∃ mn k₁ k₂, min_county exJoined = some mn
            ∧ population_by_county exJoined = k₁ ++ mn :: k₂
            ∧ (∀ p ∈ k₁, mn.2 < p.2)
            ∧ ∀ p ∈ population_by_county exJoined, mn.2 ≤ p.2)) :=
  ⟨by decide, by decide, by decide,
    extremum_is_first_in_sorted_order exJoined (by decide)⟩

/-! ## Properties of the attribute join and of geometry building -/

/-- C3: the attribute join has inner-join cardinality: the number of
output rows equals the number of matching key pairs of the two tables, and
every output row arises from a left record and a right record with equal
Ward Code keys, carrying that right record's Distance column; records
whose key is unmatched on the other side contribute no row. -/
theorem merge_inner_join (wards : List (WardRec γ)) (transport : List TransportRec) :
    (merge wards transport).length
      = (wards.map (fun w =>
          (transport.filter (fun t => t.wardCode == w.wardCode)).length)).sum
    ∧ ∀ m ∈ merge wards transport, ∃ w ∈ wards, ∃ t ∈ transport,
        w.wardCode = t.wardCode
        ∧ m = { wardCode := w.wardCode, population := w.population,
                geometry := w.geometry, distance := t.distance } := by
  constructor
  · rw [merge, List.length_flatMap]
    congr 1
    apply List.map_congr_left
    intro w _
    simp
  · intro m hm
    rcases List.mem_flatMap.mp hm with ⟨w, hw, hm'⟩
    rcases List.mem_map.mp hm' with ⟨t, ht, rfl⟩
    have htm := List.mem_filter.mp ht
    refine ⟨w, hw, t, htm.1, ?_, rfl⟩
    have := htm.2
    simp only [beq_iff_eq] at this
    exact this.symm

/-- Witness for C3, the example scenario of the specification: two left
records with key W1 joined against one right record with key W1 and
distance 2.3 yield exactly two rows, each carrying distance 2.3. -/
theorem merge_inner_join_witness :
    merge exWardsA exTransport
      = [{ wardCode := "W1", population := 100, geometry := (), distance := 23/10 },
         { wardCode := "W1", population := 100, geometry := (), distance := 23/10 }]
    ∧ (merge exWardsA exTransport).length = 2
    ∧ (merge exWardsA exTransport).length
        = (exWardsA.map (fun w =>
            (exTransport.filter (fun t => t.wardCode == w.wardCode)).length)).sum
    ∧ ∀ m ∈ merge exWardsA exTransport, ∃ w ∈ exWardsA, ∃ t ∈ exTransport,
        w.wardCode = t.wardCode
        ∧ m = { wardCode := w.wardCode, population := w.population,
                geometry := w.geometry, distance := t.distance } :=
  ⟨rfl, rfl, (merge_inner_join exWardsA exTransport).1,
    (merge_inner_join exWardsA exTransport).2⟩

/-- The columnar construction of the airports GeoDataFrame equals the
row-wise construction: each record keeps its name and website and is
assigned the point built from its own lon and lat. -/
theorem airports_rows (df : List AirportCsvRow) :
    (airports df).rows = df.map (fun r =>
      { name := r.name, website := r.website,
        geometry := { x := r.lon, y := r.lat } }) := by
  induction df with
  | nil => rfl
  | cons r rest ih =>
    simp only [airports, points_from_xy, List.map_cons, List.zipWith_cons_cons,
      List.cons.injEq] at ih ⊢
    exact ⟨trivial, ih⟩

/-- C6: for every row of the coordinate table, the geometry builder
produces a point whose x coordinate is exactly the row's longitude and
whose y coordinate is exactly the row's latitude, with no transformation
applied; the declared reference system of the built layer is WGS84
(epsg:4326). -/
theorem points_from_xy_preserves_coordinates (df : List AirportCsvRow) :
    points_from_xy (df.map (fun r => r.lon)) (df.map (fun r => r.lat))
      = df.map (fun r => { x := r.lon, y := r.lat : PointGeom })
    ∧ (airports df).rows.map (fun f => (f.geometry.x, f.geometry.y))
      = df.map (fun r => (r.lon, r.lat))
    ∧ (airports df).crs = "epsg:4326" := by
  refine ⟨?_, ?_, rfl⟩
  · induction df with
    | nil => rfl
    | cons r rest ih =>
      simp only [points_from_xy, List.map_cons, List.zipWith_cons_cons,
        List.cons.injEq] at ih ⊢
      exact ⟨trivial, ih⟩
  · rw [airports_rows, List.map_map]
    rfl

/-- C10: the saved figure is coloured from the untouched wards table's
Population column and outlines the counties layer; it does not read the
joined table or the aggregation.  Two runs on the same wards and counties
layers whose geometry engines resolve intersections differently (changing
the joined table, the per-county sums and the printed min/max report)
render identical figures. -/
theorem figure_independent_of_join (i₁ i₂ : γ → γ → Bool)
    (wards : List (WardRow γ)) (counties : List (CountyRow γ)) :
    (runPipeline i₁ wards counties).figure = (runPipeline i₂ wards counties).figure
    ∧ (runPipeline i₁ wards counties).figure = renderFigure wards counties :=
  ⟨rfl, rfl⟩

end EGM722
